import Mathlib

/-!
Shallow embedding of the DocRefinery sanitizer pipeline
(src/batch_clean_structured.py, class RAGSanitizer) over lists of
characters.  Python strings are modelled as List Char; every scanning
primitive (str.replace, re.sub, str.split, str.strip, str.count) is
translated to an executable Lean function with the same non-overlapping,
left-to-right semantics.  Functions that consume more than one character
per step carry an explicit fuel argument initialised to the input length,
which keeps them structurally recursive and kernel-evaluable.
-/

/-- Whitespace for the purposes of Python str.strip and the regex class
backslash-s, restricted to the characters that can occur in this corpus
(ASCII whitespace and the no-break space). -/
def isPySpace (c : Char) : Bool :=
  c = ' ' || c = '\t' || c = '\n' || c = '\r' || c = '\x0b' || c = '\x0c' || c = '\xa0'

/-- Python str.strip: drop whitespace from both ends. -/
def pyStrip (s : List Char) : List Char :=
  ((s.dropWhile isPySpace).reverse.dropWhile isPySpace).reverse

/-- Python lowercasing (str.lower), ASCII-faithful. -/
def lowerAll (s : List Char) : List Char :=
  s.map Char.toLower

/-- Python substring test (the in operator on str): pat occurs contiguously
somewhere in s. -/
def containsSub (s pat : List Char) : Bool :=
  match s with
  | [] => pat.isEmpty
  | _ :: cs => pat.isPrefixOf s || containsSub cs pat

/-- Python str.replace(pat, repl): replace non-overlapping occurrences left
to right, continuing after each replaced occurrence.  Fuel starts at the
length of the input; one unit of fuel is spent per step and each step
consumes at least one input character, so the top-level wrapper below never
exhausts it. -/
def replaceAllF (pat repl : List Char) : Nat → List Char → List Char
  | _, [] => []
  | 0, s => s
  | fuel + 1, c :: cs =>
    if pat.isPrefixOf (c :: cs) && !pat.isEmpty then
      repl ++ replaceAllF pat repl fuel (cs.drop (pat.length - 1))
    else
      c :: replaceAllF pat repl fuel cs

/-- Python str.replace(pat, repl) (s.replace(pat, repl) with nonempty pat). -/
def replaceAll (pat repl s : List Char) : List Char :=
  replaceAllF pat repl s.length s

/-- Python str.count(pat): number of non-overlapping occurrences, scanning
left to right. -/
def countOccsF (pat : List Char) : Nat → List Char → Nat
  | _, [] => 0
  | 0, _ => 0
  | fuel + 1, c :: cs =>
    if pat.isPrefixOf (c :: cs) && !pat.isEmpty then
      1 + countOccsF pat fuel (cs.drop (pat.length - 1))
    else
      countOccsF pat fuel cs

/-- Python str.count(pat) for nonempty pat. -/
def countOccs (pat s : List Char) : Nat :=
  countOccsF pat s.length s

/-- Python str.split(sep) for a single separator character: keeps empty
pieces, always returns at least one piece. -/
def splitOnChar (sep : Char) : List Char → List (List Char)
  | [] => [[]]
  | c :: cs =>
    if c = sep then [] :: splitOnChar sep cs
    else
      match splitOnChar sep cs with
      | [] => [[c]]
      | l :: ls => (c :: l) :: ls

/-- Python "\n".join: interleave a newline between the pieces. -/
def joinNl : List (List Char) → List Char
  | [] => []
  | [l] => l
  | l :: l2 :: ls => l ++ '\n' :: joinNl (l2 :: ls)

/-- True when the list starts with three consecutive whitespace characters
(the start of a match of the regex backslash-s-brace-3-comma-brace). -/
def ws3At : List Char → Bool
  | a :: b :: c :: _ => isPySpace a && isPySpace b && isPySpace c
  | _ => false

/-- Python re.split on a run of three or more whitespace characters: cut the
string at every maximal whitespace run of length at least three.  Used both
as the table-row detector (more than one piece) and as the cell splitter. -/
def splitWs3F : Nat → List Char → List (List Char)
  | _, [] => [[]]
  | 0, s => [s]
  | fuel + 1, c :: cs =>
    if ws3At (c :: cs) then
      [] :: splitWs3F fuel ((c :: cs).dropWhile isPySpace)
    else
      match splitWs3F fuel cs with
      | [] => [[c]]
      | l :: ls => (c :: l) :: ls

/-- Python re.split(r-backslash-s-3-plus, s). -/
def splitWs3 (s : List Char) : List (List Char) :=
  splitWs3F s.length s

/-- Attempt to match the page-marker regex (three dashes, optional
whitespace, the word PAGE, optional whitespace, one or more digits,
optional whitespace, three dashes) at the start of s; on success return the
remainder after the match.  Greedy whitespace and digit runs are maximal,
which is forced here because no run can be followed by a character of its
own class. -/
def pageMarkerMatch (s : List Char) : Option (List Char) :=
  if ("---".toList).isPrefixOf s then
    let r1 := (s.drop 3).dropWhile isPySpace
    if ("PAGE".toList).isPrefixOf r1 then
      let r2 := (r1.drop 4).dropWhile isPySpace
      let ds := r2.takeWhile Char.isDigit
      if ds.isEmpty then none
      else
        let r3 := (r2.drop ds.length).dropWhile isPySpace
        if ("---".toList).isPrefixOf r3 then some (r3.drop 3) else none
    else none
  else none

/-- Python re.sub removing every occurrence of the page-marker pattern,
scanning left to right, continuing after each match. -/
def subPageMarkerF : Nat → List Char → List Char
  | _, [] => []
  | 0, s => s
  | fuel + 1, c :: cs =>
    match pageMarkerMatch (c :: cs) with
    | some rest => subPageMarkerF fuel rest
    | none => c :: subPageMarkerF fuel cs

/-- re.sub(page-marker, empty string, s). -/
def subPageMarker (s : List Char) : List Char :=
  subPageMarkerF s.length s

/-! ### String constants of the source -/

/-- The literal TABLE_ROW tag prepended by the noise filter. -/
def tagTR : List Char := "<TABLE_ROW>".toList

/-- The literal TABLE_BLOCK tag inserted by the grouping regex. -/
def tagTB : List Char := "<TABLE_BLOCK>".toList

/-- The literal FORCE_BREAK tag prepended to numbered lines. -/
def tagFB : List Char := "<FORCE_BREAK>".toList

/-- The boilerplate-section start marker that latches the footer flag. -/
def footerMarker : List Char := "We want to hear from you".toList

/-- The dot-leader pattern counted by the page filter. -/
def fiveDots : List Char := ".....".toList

/-- The fixed boilerplate front-matter markers of is_junk_page. -/
def junkTriggers : List (List Char) :=
  ["creative commons".toList, "isbn 978".toList, "suggested citation".toList,
   "mailing address:".toList, "all rights reserved".toList]

/-! ### Page Filter (is_junk_page, source lines 44-53) -/

/-- RAGSanitizer.is_junk_page: decides from the raw page text alone whether
the page is junk.  Direct translation of the if-chain of the source; note
that the function has no page-index argument. -/
def is_junk_page (text : List Char) : Bool :=
  let textLower := lowerAll text
  if 3 < countOccs fiveDots text then true
  else if containsSub (textLower.take 200) ("contents".toList) &&
          containsSub textLower ("chapter".toList) then true
  else if containsSub textLower ("list of tables".toList) ||
          containsSub textLower ("list of figures".toList) then true
  else if 2 ≤ List.countP (fun t => containsSub textLower t) junkTriggers then true
  else false

/-- Spec-side rule: the dot-leader (table of contents) signature. -/
@[reducible] def ruleDotLeaders (text : List Char) : Prop :=
  3 < countOccs fiveDots text

/-- Spec-side rule: the word contents near the top together with the word
chapter anywhere. -/
@[reducible] def ruleTocKeyword (text : List Char) : Prop :=
  containsSub ((lowerAll text).take 200) ("contents".toList) = true ∧
  containsSub (lowerAll text) ("chapter".toList) = true

/-- Spec-side rule: a list-of-tables or list-of-figures page. -/
@[reducible] def ruleListOf (text : List Char) : Prop :=
  containsSub (lowerAll text) ("list of tables".toList) = true ∨
  containsSub (lowerAll text) ("list of figures".toList) = true

/-- Spec-side rule: at least two of the fixed boilerplate front-matter
markers co-occur in the lowercased text. -/
@[reducible] def ruleBoilerplateCooc (text : List Char) : Prop :=
  2 ≤ List.countP (fun t => containsSub (lowerAll text) t) junkTriggers

/-! ### Noise filter (clean_text_rag_optimized, source lines 55-89) -/

/-- Existence of a match of re.match on the pattern caret-digits-plus,
optional dot-digit groups, optional trailing dot.  All parts after the
leading digit run are optional or may match the empty string, so a match
exists exactly when the first character is a digit. -/
def matchNumPrefix : List Char → Bool
  | c :: _ => c.isDigit
  | [] => false

/-- re.match of the IGNORECASE pattern caret-(Source or Figure or http)
followed by dot-star: a case-insensitive prefix test (dot-star always
matches). -/
def matchSrcFigHttp (s : List Char) : Bool :=
  ("source".toList).isPrefixOf (lowerAll s) ||
  ("figure".toList).isPrefixOf (lowerAll s) ||
  ("http".toList).isPrefixOf (lowerAll s)

/-- How the per-line filter of clean_text_rag_optimized treats a stripped
line that survived the length check and the footer latch. -/
inductive LineAction where
  | drop
  | emit (out : List Char)
deriving DecidableEq

/-- The junk-pattern filters and structure markers of the line loop of
clean_text_rag_optimized, applied to an already stripped line (everything
after the footer-latch check). -/
def lineStep (stripped : List Char) : LineAction :=
  if containsSub stripped ("FAO".toList) && containsSub stripped ("Yangon".toList) then .drop
  else if containsSub stripped ("Page".toList) && containsSub stripped ("of".toList) then .drop
  else if containsSub stripped ("Tuesday, December".toList) then .drop
  else if containsSub stripped ("CD1098EN".toList) then .drop
  else if matchSrcFigHttp stripped then .drop
  else if 1 < (splitWs3 stripped).length then .emit (tagTR ++ stripped)
  else if matchNumPrefix stripped then .emit (tagFB ++ stripped)
  else .emit stripped

/-- The line loop of clean_text_rag_optimized with the hit_footer latch
threaded explicitly.  A line shorter than three characters after stripping
is skipped before the latch is consulted, exactly as in the source; when
the latch test fails, hit_footer is false, so the recursion continues with
false. -/
def cleanLinesGo : Bool → List (List Char) → List (List Char)
  | _, [] => []
  | hf, line :: rest =>
    let stripped := pyStrip line
    if stripped.length < 3 then cleanLinesGo hf rest
    else if hf || containsSub stripped footerMarker then
      cleanLinesGo (hf || containsSub stripped footerMarker) rest
    else
      match lineStep stripped with
      | .drop => cleanLinesGo false rest
      | .emit o => o :: cleanLinesGo false rest

/-- RAGSanitizer.clean_text_rag_optimized: global character scrubbing
followed by the per-line filter, re-joined with newlines. -/
def clean_text_rag_optimized (text : List Char) : List Char :=
  let t1 := replaceAll ['\\'] [] text
  let t2 := subPageMarker t1
  let t3 := replaceAll ['©'] [] t2
  let t4 := replaceAll ['\xa0'] [' '] t3
  let t5 := replaceAll ['\\'] [] t4
  let t6 := replaceAll ("AKW".toList) [] t5
  joinNl (cleanLinesGo false (splitOnChar '\n' t6))

/-! ### Structure classifier (header logic of sanitize, source lines 162-169) -/

/-- The paragraph styles between which the header logic chooses. -/
inductive PStyle where
  | h1
  | h2
  | list
  | body
deriving DecidableEq

/-- re.match of the anchored pattern digits-plus, dot, whitespace-plus,
then one or more characters each uppercase A-Z or whitespace, to the end.
After the digit run and the dot, a match exists exactly when the remainder
has at least two characters (one for each plus), starts with whitespace,
and consists only of uppercase letters and whitespace. -/
def matchH1 (s : List Char) : Bool :=
  let ds := s.takeWhile Char.isDigit
  if ds.isEmpty then false
  else
    match s.drop ds.length with
    | '.' :: rest =>
      match rest with
      | c :: cs => isPySpace c && !cs.isEmpty &&
          rest.all (fun x => x.isUpper || isPySpace x)
      | [] => false
    | _ => false

/-- re.match of the pattern digits-plus, dot, digits-plus, optional dot,
whitespace-plus.  The optional dot is taken greedily; if it is present the
next character must be whitespace (declining the dot cannot help, since the
dot itself is not whitespace). -/
def matchH2 (s : List Char) : Bool :=
  let d1 := s.takeWhile Char.isDigit
  if d1.isEmpty then false
  else
    match s.drop d1.length with
    | '.' :: r1 =>
      let d2 := r1.takeWhile Char.isDigit
      if d2.isEmpty then false
      else
        match r1.drop d2.length with
        | '.' :: r2 =>
          match r2 with
          | c :: _ => isPySpace c
          | [] => false
        | c :: _ => isPySpace c
        | [] => false
    | _ => false

/-- The header logic of sanitize: the ordered first-match decision list
choosing a paragraph style for a text block. -/
def classifyStyle (t : List Char) : PStyle :=
  if matchH1 t ∧ t.length < 80 then .h1
  else if matchH2 t ∧ t.length < 80 then .h2
  else if matchNumPrefix t then .list
  else .body

/-! ### Table grouping regex (source line 127) -/

/-- The lookahead of the grouping regex: optional whitespace followed by
the FORCE_BREAK tag, or optional whitespace followed by an uppercase
letter.  Both alternatives force the whitespace run to be skipped in full,
because neither a left angle bracket nor an uppercase letter is
whitespace. -/
def lookaheadOk (s : List Char) : Bool :=
  let r := s.dropWhile isPySpace
  tagFB.isPrefixOf r ||
    (match r with
     | c :: _ => c.isUpper
     | [] => false)

/-- The lazy dot-star-question of the grouping regex: consume the minimal
number of non-newline characters after which the lookahead holds, returning
the consumed characters and the remainder; none when no such point exists
before a newline or the end. -/
def lazyScanF : Nat → List Char → Option (List Char × List Char)
  | 0, s => if lookaheadOk s then some ([], s) else none
  | fuel + 1, s =>
    if lookaheadOk s then some ([], s)
    else
      match s with
      | [] => none
      | c :: cs =>
        if c = '\n' then none
        else (lazyScanF fuel cs).map (fun p => (c :: p.1, p.2))

/-- re.sub of the grouping pattern:  a TABLE_ROW tag followed by a lazy
non-newline run, with the lookahead above, is replaced by a newline, a
TABLE_BLOCK tag and the matched text; scanning continues after each
match. -/
def tableGroupSubF : Nat → List Char → List Char
  | _, [] => []
  | 0, s => s
  | fuel + 1, c :: cs =>
    if tagTR.isPrefixOf (c :: cs) then
      let rest := (c :: cs).drop tagTR.length
      match lazyScanF rest.length rest with
      | some p => ('\n' :: tagTB) ++ tagTR ++ p.1 ++ tableGroupSubF fuel p.2
      | none => c :: tableGroupSubF fuel cs
    else c :: tableGroupSubF fuel cs

/-- The grouping substitution applied to a whole string. -/
def tableGroupSub (s : List Char) : List Char :=
  tableGroupSubF s.length s

/-! ### Document assembly (sanitize, source lines 112-187) -/

/-- An element of the reportlab story: a styled paragraph, a table given by
its rows of cells, or a spacer. -/
inductive StoryElem where
  | para (text : List Char) (style : PStyle)
  | table (data : List (List (List Char)))
  | spacer
deriving DecidableEq

/-- RAGSanitizer.process_table_block: split each buffered line on runs of
three or more spaces into cells; None exactly when there are no lines. -/
def processTableBlock (tableLines : List (List Char)) : Option StoryElem :=
  let data := tableLines.map (fun line => splitWs3 (pyStrip line))
  if data.isEmpty then none else some (StoryElem.table data)

/-- The loop state of sanitize: the story built so far and the pending
table-row buffer. -/
structure BState where
  story : List StoryElem
  buf : List (List Char)
deriving DecidableEq

/-- One iteration of the block loop of sanitize.  The accept parameter
models whether the external renderer's Paragraph constructor succeeds on a
payload; on failure the source catches the exception and appends nothing. -/
def processBlock (accept : List Char → Bool) (st : BState) (b : List Char) : BState :=
  let block := pyStrip b
  if block.isEmpty then st
  else if containsSub block tagTR || containsSub block tagTB then
    let rowContent := replaceAll tagFB [] (replaceAll tagTR [] (replaceAll tagTB [] block))
    ⟨st.story, st.buf ++ [rowContent]⟩
  else
    let st1 : BState :=
      if st.buf.isEmpty then st
      else ⟨st.story ++ (processTableBlock st.buf).toList ++ [StoryElem.spacer], []⟩
    let textContent := pyStrip (replaceAll tagFB [] block)
    if textContent.isEmpty then st1
    else if accept textContent then
      ⟨st1.story ++ [StoryElem.para textContent (classifyStyle textContent)], st1.buf⟩
    else st1

/-- The block loop of sanitize over all blocks of one page, including the
end-of-page flush of a pending table buffer (which appends no spacer). -/
def processBlocks (accept : List Char → Bool) (blocks : List (List Char)) : List StoryElem :=
  let st := blocks.foldl (processBlock accept) ⟨[], []⟩
  if st.buf.isEmpty then st.story
  else st.story ++ (processTableBlock st.buf).toList

/-- The per-page body of sanitize after the junk-page check: clean the
text, replace newlines by spaces, put each FORCE_BREAK tag on a new line,
run the grouping substitution, split into blocks and run the block loop. -/
def sanitizePage (accept : List Char → Bool) (rawText : List Char) : List StoryElem :=
  let ct := clean_text_rag_optimized rawText
  let s1 := replaceAll ['\n'] [' '] ct
  let s2 := replaceAll tagFB ('\n' :: tagFB) s1
  let s3 := tableGroupSub s2
  processBlocks accept (splitOnChar '\n' s3)

/-- RAGSanitizer.sanitize up to the final build: the story accumulated over
the pages, with junk pages skipped. -/
def sanitizeStory (accept : List Char → Bool) (pages : List (List Char)) : List StoryElem :=
  pages.foldl
    (fun story p => if is_junk_page p then story else story ++ sanitizePage accept p) []

/-- The document produced by sanitize: the source invokes the renderer only
when the story is nonempty, so an empty story yields no output file.  The
rendered document is modelled by the story it is built from. -/
def sanitizeOutput (accept : List Char → Bool) (pages : List (List Char)) :
    Option (List StoryElem) :=
  let story := sanitizeStory accept pages
  if story.isEmpty then none else some story

/-! ### Reading-order resolver (spec 4.2; not present in the source file) -/

/-- Modelled from the spec: a positioned text fragment as produced by the
document source, with its text, the left and top edges of its bounding box
in page coordinates, and the content-type tag reduced to whether the
fragment is text.  The resolver itself is absent from
src/batch_clean_structured.py, which obtains already-ordered plain text
from the external page.get_text call. -/
structure Fragment where
  text : List Char
  x0 : ℚ
  y0 : ℚ
  isText : Bool

/-- Modelled from the spec: a page as seen by the resolver. -/
structure PageM where
  width : ℚ
  fragments : List Fragment

/-- Modelled from the spec: discard non-text fragments and text fragments
whose trimmed text has length at most one. -/
def survivingFragments (p : PageM) : List Fragment :=
  p.fragments.filter (fun f => f.isText && decide (1 < (pyStrip f.text).length))

/-- Modelled from the spec: the column midline. -/
def pageMid (p : PageM) : ℚ :=
  p.width / 2

/-- Modelled from the spec: the two-column margin of about twenty layout
units. -/
def colMargin : ℚ := 20

/-- Modelled from the spec: a page is two-column when some surviving
fragment starts unambiguously in the right half. -/
def isTwoColumn (p : PageM) : Bool :=
  (survivingFragments p).any (fun f => decide (pageMid p + colMargin < f.x0))

/-- Modelled from the spec: stable sort by the top edge. -/
def sortByY (fs : List Fragment) : List Fragment :=
  fs.mergeSort (fun a b => decide (a.y0 ≤ b.y0))

/-- Modelled from the spec: order_fragments.  Single-column pages are
sorted by the top edge; two-column pages are partitioned at the midline
into LEFT (left edge strictly before the midline) and RIGHT, each sorted by
the top edge, LEFT emitted in full before RIGHT; each emitted fragment is
its trimmed text. -/
def order_fragments (p : PageM) : List (List Char) :=
  let frags := survivingFragments p
  if frags.isEmpty then []
  else if isTwoColumn p then
    let left := frags.filter (fun f => decide (f.x0 < pageMid p))
    let right := frags.filter (fun f => !(decide (f.x0 < pageMid p)))
    (sortByY left ++ sortByY right).map (fun f => pyStrip f.text)
  else (sortByY frags).map (fun f => pyStrip f.text)

/-! ### Concrete sample inputs used by witnesses and counterexamples -/

/-- A renderer that accepts every payload. -/
def acceptAllR : List Char → Bool := fun _ => true

/-- A renderer that rejects exactly the payload of the first sample list
item below, modelling a Paragraph constructor that throws on it. -/
def acceptRejectFirst : List Char → Bool :=
  fun t => !(t == ("1. First item".toList))

/-- Whether a story element, if it is a table, has at least two rows. -/
def tableHasMinTwoRows : StoryElem → Bool
  | StoryElem.table d => decide (2 ≤ d.length)
  | _ => true

/-- An ordinary content page: matches no junk rule and no noise filter. -/
def pageBodySample : List Char := "Regular body content describing the procedure.".toList

/-- A page whose only line is a single isolated table row. -/
def pageTableRowSample : List Char := "Name   Age".toList

/-- A page with a word broken across two lines by a trailing hyphen. -/
def pageHyphenSample : List Char := "exam-\nple".toList

/-- A page with two numbered list items, the first of which the rejecting
renderer refuses. -/
def pageTwoItemsSample : List Char := "1. First item\n2. Second item".toList

/-- Raw text in which removing the occurrence of AKW splices the remnants
into a new occurrence of AKW. -/
def pageAkwSample : List Char := "AAKWKW".toList

/-- Front-matter boilerplate with three of the co-occurrence markers. -/
def pageIsbnSample : List Char :=
  "ISBN 978-92-5-100000-1. Mailing address: Viale delle Terme. All rights reserved.".toList

/-- A page of dot leaders, junk by the dot-leader rule. -/
def pageDotsSample : List Char := ".........................".toList

/-- The classification tie-break sample lines of the spec. -/
def lineH1Sample : List Char := "1.  SCOPE".toList

/-- Sub-heading sample line. -/
def lineH2Sample : List Char := "1.1 Definitions apply".toList

/-- Lettered enumerator sample line. -/
def lineListSample : List Char := "(a) first condition".toList

/-- Plain body sample line. -/
def lineBodySample : List Char := "This section describes the procedure.".toList

/-- Sample lines around a footer marker for the latch witness. -/
def lineIntroSample : List Char := "Intro line here".toList

/-- The footer marker line of the latch witness. -/
def lineFooterSample : List Char := "We want to hear from you!".toList

/-- A line standing after the footer marker. -/
def lineAfterSample : List Char := "After footer line".toList

/-- A single already-tagged table-row block, as the block loop receives
it. -/
def blockSingleRowSample : List Char := "<TABLE_ROW>Name   Age".toList

/-- A single plain list-item block, the payload the rejecting renderer
refuses. -/
def blockListItemSample : List Char := "1. First item".toList

/-- A two-column sample page: one fragment on each side of the midline. -/
def pageTwoColSample : PageM :=
  ⟨100, [⟨"Left column text".toList, 10, 5, true⟩,
         ⟨"Right column text".toList, 80, 3, true⟩]⟩

/-! ### Helper lemmas -/

theorem containsSub_length_le {s pat : List Char} (h : containsSub s pat = true) :
    pat.length ≤ s.length := by
  induction s with
  | nil =>
    simp only [containsSub, List.isEmpty_iff] at h
    simp [h]
  | cons c cs ih =>
    simp only [containsSub, Bool.or_eq_true] at h
    rcases h with h | h
    · exact (List.isPrefixOf_iff_prefix.mp h).length_le
    · exact le_trans (ih h) (by simp)

theorem cleanLinesGo_latched (lines : List (List Char)) : cleanLinesGo true lines = [] := by
  induction lines with
  | nil => rfl
  | cons l rest ih =>
    simp only [cleanLinesGo, Bool.true_or, if_true]
    split <;> simp [ih]

theorem cleanLinesGo_marker_cut (b : Bool) (pre suf : List (List Char)) (m : List Char)
    (h : containsSub (pyStrip m) footerMarker = true) :
    cleanLinesGo b (pre ++ m :: suf) = cleanLinesGo b (pre ++ [m]) := by
  induction pre generalizing b with
  | nil =>
    simp only [List.nil_append, cleanLinesGo]
    have hlen : ¬ (pyStrip m).length < 3 := by
      have h24 := containsSub_length_le h
      simp only [footerMarker] at h24
      have hfm : ("We want to hear from you".toList).length = 24 := rfl
      omega
    rw [if_neg hlen, if_neg hlen]
    have hb : (b || containsSub (pyStrip m) footerMarker) = true := by simp [h]
    rw [if_pos hb, if_pos hb, hb]
    simp [cleanLinesGo, cleanLinesGo_latched]
  | cons p pre' ih =>
    simp only [List.cons_append, cleanLinesGo]
    split
    · exact ih _
    · split
      · exact ih _
      · split
        · exact ih _
        · exact congrArg _ (ih _)

theorem foldl_skip_append_shift {α β : Type} (g : α → List β) (junk : α → Bool) :
    ∀ (l : List α) (s : List β),
      l.foldl (fun acc x => if junk x then acc else acc ++ g x) s =
        s ++ l.foldl (fun acc x => if junk x then acc else acc ++ g x) [] := by
  intro l
  induction l with
  | nil => simp
  | cons x xs ih =>
    intro s
    rw [List.foldl_cons, List.foldl_cons, ih, ih]
    by_cases hj : junk x = true
    · simp [hj]
    · simp only [hj, Bool.false_eq_true, if_false, List.nil_append, List.append_assoc]
      rw [ih (g x)]

theorem sanitizeStory_append (accept : List Char → Bool) (l1 l2 : List (List Char)) :
    sanitizeStory accept (l1 ++ l2) =
      sanitizeStory accept l1 ++ sanitizeStory accept l2 := by
  show List.foldl _ [] (l1 ++ l2) = _
  rw [List.foldl_append]
  exact foldl_skip_append_shift (sanitizePage accept) is_junk_page l2 _

theorem mem_replaceAllF {pat repl : List Char} {x : Char} :
    ∀ (fuel : Nat) (s : List Char), x ∈ replaceAllF pat repl fuel s → x ∈ s ∨ x ∈ repl := by
  intro fuel
  induction fuel with
  | zero =>
    intro s hx
    cases s with
    | nil => simp [replaceAllF] at hx
    | cons c cs => exact Or.inl hx
  | succ f ih =>
    intro s hx
    cases s with
    | nil => simp [replaceAllF] at hx
    | cons c cs =>
      simp only [replaceAllF] at hx
      split at hx
      · rcases List.mem_append.mp hx with hx | hx
        · exact Or.inr hx
        · rcases ih _ hx with hx | hx
          · exact Or.inl (List.mem_cons_of_mem c (List.mem_of_mem_drop hx))
          · exact Or.inr hx
      · rcases List.mem_cons.mp hx with hx | hx
        · exact Or.inl (hx ▸ List.mem_cons_self c cs)
        · rcases ih _ hx with hx | hx
          · exact Or.inl (List.mem_cons_of_mem c hx)
          · exact Or.inr hx

theorem mem_replaceAll {pat repl s : List Char} {x : Char}
    (hx : x ∈ replaceAll pat repl s) : x ∈ s ∨ x ∈ repl :=
  mem_replaceAllF s.length s hx

theorem not_mem_replaceAllF_single {a : Char} :
    ∀ (fuel : Nat) (s : List Char), s.length ≤ fuel → a ∉ replaceAllF [a] [] fuel s := by
  intro fuel
  induction fuel with
  | zero =>
    intro s hs
    have : s = [] := List.length_eq_zero.mp (Nat.le_zero.mp hs)
    subst this
    simp [replaceAllF]
  | succ f ih =>
    intro s hs
    cases s with
    | nil => simp [replaceAllF]
    | cons c cs =>
      simp only [replaceAllF]
      split
      · next hc =>
        simp only [List.nil_append, List.drop_zero]
        exact ih cs (by simpa using hs)
      · next hc =>
        have hca : ¬ (c = a) := by
          intro heq
          apply hc
          simp [heq, List.isPrefixOf]
        intro hmem
        rcases List.mem_cons.mp hmem with hx | hx
        · exact hca hx.symm
        · exact ih cs (by simpa using hs) hx

theorem not_mem_replaceAll_single {a : Char} (s : List Char) :
    a ∉ replaceAll [a] [] s :=
  not_mem_replaceAllF_single s.length s le_rfl

theorem mem_pyStrip {x : Char} {s : List Char} (hx : x ∈ pyStrip s) : x ∈ s := by
  simp only [pyStrip, List.mem_reverse] at hx
  have h1 := (List.dropWhile_sublist (l := (s.dropWhile isPySpace).reverse) isPySpace).mem hx
  rw [List.mem_reverse] at h1
  exact (List.dropWhile_sublist (l := s) isPySpace).mem h1

theorem mem_splitOnChar {sep : Char} {x : Char} :
    ∀ (s : List Char) (l : List Char), l ∈ splitOnChar sep s → x ∈ l → x ∈ s := by
  intro s
  induction s with
  | nil =>
    intro l hl hx
    simp only [splitOnChar, List.mem_singleton] at hl
    subst hl
    simp at hx
  | cons c cs ih =>
    intro l hl hx
    simp only [splitOnChar] at hl
    split at hl
    · rcases List.mem_cons.mp hl with hl | hl
      · subst hl; simp at hx
      · exact List.mem_cons_of_mem c (ih l hl hx)
    · rename_i hc
      rcases heq : splitOnChar sep cs with _ | ⟨m, ms⟩
      · rw [heq] at hl
        simp only [List.mem_singleton] at hl
        subst hl
        rcases List.mem_singleton.mp hx with hx
        exact hx ▸ List.mem_cons_self c cs
      · rw [heq] at hl
        rcases List.mem_cons.mp hl with hl | hl
        · subst hl
          rcases List.mem_cons.mp hx with hx | hx
          · exact hx ▸ List.mem_cons_self c cs
          · exact List.mem_cons_of_mem c (ih m (heq ▸ List.mem_cons_self m ms) hx)
        · exact List.mem_cons_of_mem c (ih l (heq ▸ List.mem_cons_of_mem m hl) hx)

theorem mem_joinNl {x : Char} :
    ∀ (ls : List (List Char)), x ∈ joinNl ls → x = '\n' ∨ ∃ l ∈ ls, x ∈ l := by
  intro ls
  induction ls with
  | nil => intro hx; simp [joinNl] at hx
  | cons l ls ih =>
    intro hx
    cases ls with
    | nil =>
      simp only [joinNl] at hx
      exact Or.inr ⟨l, List.mem_singleton.mpr rfl, hx⟩
    | cons l2 ls2 =>
      simp only [joinNl, List.mem_append, List.mem_cons] at hx
      rcases hx with hx | hx | hx
      · exact Or.inr ⟨l, List.mem_cons_self _ _, hx⟩
      · exact Or.inl hx
      · rcases ih hx with h | ⟨m, hm, hxm⟩
        · exact Or.inl h
        · exact Or.inr ⟨m, List.mem_cons_of_mem _ hm, hxm⟩

theorem lineStep_emit_shape (s o : List Char) (h : lineStep s = LineAction.emit o) :
    o = tagTR ++ s ∨ o = tagFB ++ s ∨ o = s := by
  simp only [lineStep] at h
  split at h
  · simp at h
  · split at h
    · simp at h
    · split at h
      · simp at h
      · split at h
        · simp at h
        · split at h
          · simp at h
          · split at h
            · exact Or.inl (LineAction.emit.inj h).symm
            · split at h
              · exact Or.inr (Or.inl (LineAction.emit.inj h).symm)
              · exact Or.inr (Or.inr (LineAction.emit.inj h).symm)

theorem mem_cleanLinesGo {x : Char} :
    ∀ (hf : Bool) (lines : List (List Char)) (o : List Char),
      o ∈ cleanLinesGo hf lines → x ∈ o →
      x ∈ tagTR ∨ x ∈ tagFB ∨ ∃ line ∈ lines, x ∈ line := by
  intro hf lines
  induction lines generalizing hf with
  | nil => intro o ho _; simp [cleanLinesGo] at ho
  | cons l rest ih =>
    intro o ho hx
    have tail : o ∈ cleanLinesGo false rest ∨ o ∈ cleanLinesGo hf rest ∨
        o ∈ cleanLinesGo (hf || containsSub (pyStrip l) footerMarker) rest ∨
        (∃ out, lineStep (pyStrip l) = LineAction.emit out ∧ o = out) := by
      simp only [cleanLinesGo] at ho
      split at ho
      · exact Or.inr (Or.inl ho)
      · split at ho
        · exact Or.inr (Or.inr (Or.inl ho))
        · split at ho
          · exact Or.inl ho
          · rename_i oEmit hstep
            rcases List.mem_cons.mp ho with ho2 | ho2
            · exact Or.inr (Or.inr (Or.inr ⟨oEmit, hstep, ho2⟩))
            · exact Or.inl ho2
    have fromRest : ∀ (b : Bool), o ∈ cleanLinesGo b rest →
        x ∈ tagTR ∨ x ∈ tagFB ∨ ∃ line ∈ l :: rest, x ∈ line := by
      intro b hb
      rcases ih b o hb hx with h | h | ⟨m, hm, hxm⟩
      · exact Or.inl h
      · exact Or.inr (Or.inl h)
      · exact Or.inr (Or.inr ⟨m, List.mem_cons_of_mem l hm, hxm⟩)
    rcases tail with h | h | h | ⟨out, hstep, ho2⟩
    · exact fromRest false h
    · exact fromRest hf h
    · exact fromRest _ h
    · subst ho2
      rcases lineStep_emit_shape _ _ hstep with hs | hs | hs
      · subst hs
        rcases List.mem_append.mp hx with h | h
        · exact Or.inl h
        · exact Or.inr (Or.inr ⟨l, List.mem_cons_self l rest, mem_pyStrip h⟩)
      · subst hs
        rcases List.mem_append.mp hx with h | h
        · exact Or.inr (Or.inl h)
        · exact Or.inr (Or.inr ⟨l, List.mem_cons_self l rest, mem_pyStrip h⟩)
      · subst hs
        exact Or.inr (Or.inr ⟨l, List.mem_cons_self l rest, mem_pyStrip hx⟩)

theorem sanitizeStory_all_junk (accept : List Char → Bool) :
    ∀ (pages : List (List Char)), (∀ p ∈ pages, is_junk_page p = true) →
      sanitizeStory accept pages = [] := by
  intro pages
  induction pages with
  | nil => intro _; rfl
  | cons p ps ih =>
    intro h
    have hj := h p (List.mem_cons_self p ps)
    show List.foldl _ [] (p :: ps) = []
    rw [List.foldl_cons]
    simp only [hj, if_true]
    exact ih (fun q hq => h q (List.mem_cons_of_mem p hq))

theorem containsSub_ne_nil {s pat : List Char} (h : containsSub s pat = true)
    (hp : 0 < pat.length) : s.isEmpty = false := by
  have hle := containsSub_length_le h
  cases s with
  | nil => simp only [List.length_nil, Nat.le_zero] at hle; omega
  | cons c cs => rfl

theorem is_junk_page_rules (text : List Char) :
    is_junk_page text = true ↔
      ruleDotLeaders text ∨ ruleTocKeyword text ∨ ruleListOf text ∨
        ruleBoilerplateCooc text := by
  simp only [is_junk_page, ruleDotLeaders, ruleTocKeyword, ruleListOf, ruleBoilerplateCooc]
  split
  · next h => simp only [true_iff]; exact Or.inl h
  · next h =>
    split
    · next h2 =>
      simp only [true_iff]
      exact Or.inr (Or.inl (by simpa [Bool.and_eq_true] using h2))
    · next h2 =>
      split
      · next h3 =>
        simp only [true_iff]
        exact Or.inr (Or.inr (Or.inl (by simpa [Bool.or_eq_true] using h3)))
      · next h3 =>
        split
        · next h4 => simp only [true_iff]; exact Or.inr (Or.inr (Or.inr h4))
        · next h4 =>
          constructor
          · intro hh; exact absurd hh (by simp)
          · rintro (hr | hr | hr | hr)
            · exact absurd hr h
            · exact absurd (Bool.and_eq_true _ _ |>.mpr ⟨hr.1, hr.2⟩) h2
            · rcases hr with hr | hr
              · exact absurd (Bool.or_eq_true _ _ |>.mpr (Or.inl hr)) h3
              · exact absurd (Bool.or_eq_true _ _ |>.mpr (Or.inr hr)) h3
            · exact absurd hr h4

theorem mem_clean_text {x : Char} {text : List Char}
    (hx : x ∈ clean_text_rag_optimized text) :
    x = '\n' ∨ x ∈ tagTR ∨ x ∈ tagFB ∨
      x ∈ replaceAll ("AKW".toList) []
            (replaceAll ['\\'] []
              (replaceAll ['\xa0'] [' ']
                (replaceAll ['©'] [] (subPageMarker (replaceAll ['\\'] [] text))))) := by
  simp only [clean_text_rag_optimized] at hx
  rcases mem_joinNl _ hx with h | ⟨l, hl, hxl⟩
  · exact Or.inl h
  · rcases mem_cleanLinesGo false _ l hl hxl with h | h | ⟨line, hline, hxline⟩
    · exact Or.inr (Or.inl h)
    · exact Or.inr (Or.inr (Or.inl h))
    · exact Or.inr (Or.inr (Or.inr (mem_splitOnChar _ line hline hxline)))

theorem clean_text_no_copyright_backslash (text : List Char) :
    '©' ∉ clean_text_rag_optimized text ∧ '\\' ∉ clean_text_rag_optimized text := by
  constructor
  · intro hmem
    rcases mem_clean_text hmem with h | h | h | h
    · exact absurd h (by decide)
    · exact absurd h (by decide)
    · exact absurd h (by decide)
    · rcases mem_replaceAll h with h | h
      · rcases mem_replaceAll h with h | h
        · rcases mem_replaceAll h with h | h
          · exact not_mem_replaceAll_single _ h
          · exact absurd h (by decide)
        · exact absurd h (by decide)
      · exact absurd h (by decide)
  · intro hmem
    rcases mem_clean_text hmem with h | h | h | h
    · exact absurd h (by decide)
    · exact absurd h (by decide)
    · exact absurd h (by decide)
    · rcases mem_replaceAll h with h | h
      · exact not_mem_replaceAll_single _ h
      · exact absurd h (by decide)

/-! ### Claim theorems -/

/-- Claim C1 (corrected): the page filter of the source takes only the raw
page text, with no page-index argument, and classifies a page as junk
exactly when one of its four text rules fires (dot leaders, the contents
keyword rule, a list-of-tables or list-of-figures page, or the co-occurrence
of two boilerplate markers).  There is no unconditional first-page drop. -/
theorem c1_page_filter_text_rules_only (text : List Char) :
    is_junk_page text = true ↔
      ruleDotLeaders text ∨ ruleTocKeyword text ∨ ruleListOf text ∨
        ruleBoilerplateCooc text :=
  is_junk_page_rules text

/-- Counterexample to claim C1 as stated: a first page of ordinary content
is not classified junk, and a one-page document consisting of that page
alone contributes a body paragraph to the story instead of being
dropped. -/
theorem c1_counterexample :
    is_junk_page pageBodySample = false ∧
      sanitizeStory acceptAllR [pageBodySample] =
        [StoryElem.para pageBodySample PStyle.body] := by
  constructor
  · decide
  · decide

/-- Counterexample to claim C3 as stated: the source's decision list has no
lettered-enumerator rule; the line of the form open-paren a close-paren
falls through to the body style, not the list style. -/
theorem c3_counterexample :
    classifyStyle lineListSample = PStyle.body ∧
      classifyStyle lineListSample ≠ PStyle.list := by
  decide

/-- Claim C3 (corrected): the classifier is the ordered first-match
decision list of the source; the numbered all-caps line is a level-one
heading, the multi-level numbered line is a level-two heading, the plain
sentence is body, but the lettered enumerator line is also body (the list
rule of the source matches only a leading digit). -/
theorem c3_classification_decision_list :
    classifyStyle lineH1Sample = PStyle.h1 ∧
      classifyStyle lineH2Sample = PStyle.h2 ∧
      classifyStyle lineListSample = PStyle.body ∧
      classifyStyle lineBodySample = PStyle.body := by
  decide

/-- Counterexample to claim C4 as stated: the noise filter performs no
de-hyphenation; the two lines of the hyphen sample pass through unchanged,
and the joined word never appears. -/
theorem c4_counterexample :
    clean_text_rag_optimized pageHyphenSample = pageHyphenSample ∧
      containsSub (clean_text_rag_optimized pageHyphenSample) ("example".toList) = false := by
  decide

/-- Claim C4 (corrected): no de-hyphenation exists in the source; the page
assembly later replaces the newline by a space, so the hyphen sample ends
as one body paragraph reading exam-, space, ple, hyphen retained and a
space inserted. -/
theorem c4_no_dehyphenation :
    sanitizeStory acceptAllR [pageHyphenSample] =
      [StoryElem.para ("exam- ple".toList) PStyle.body] := by
  decide

/-- Counterexample to claim C10 as stated: removal of AKW is a single
non-overlapping left-to-right pass; on the sample text the two remnants
around the removed occurrence splice into a fresh AKW that survives into
the filter output. -/
theorem c10_counterexample :
    containsSub (clean_text_rag_optimized pageAkwSample) ("AKW".toList) = true ∧
      clean_text_rag_optimized pageAkwSample = "AKW".toList := by
  decide

/-- Claim C10 (corrected): the single-character deletions are complete -
no output of the noise filter ever contains the copyright sign or a
backslash; only the multi-character AKW deletion can be defeated by
splicing. -/
theorem c10_single_char_deletions_complete (text : List Char) :
    (clean_text_rag_optimized text).contains '©' = false ∧
      (clean_text_rag_optimized text).contains '\\' = false := by
  have h := clean_text_no_copyright_backslash text
  exact ⟨by simpa using h.1, by simpa using h.2⟩

/-- Counterexample to claim C2 as stated: a page whose only line is one
isolated table row yields a story whose only element is a table with a
single row, and the story fails the two-row minimum; the row is not
downgraded to a body unit. -/
theorem c2_counterexample :
    sanitizeStory acceptAllR [pageTableRowSample] =
      [StoryElem.table [["Name".toList, "Age".toList]]] ∧
      (sanitizeStory acceptAllR [pageTableRowSample]).all tableHasMinTwoRows = false := by
  decide

/-- Claim C2 (corrected): the block loop enforces no two-row minimum: a
block list consisting of one table-tagged block is flushed at end of page
as a table with exactly one row, whose cells are the tag-stripped line
split on runs of three or more spaces; no downgrade to a body unit
exists. -/
theorem c2_isolated_row_one_row_table (accept : List Char → Bool) (b : List Char)
    (h : containsSub (pyStrip b) tagTR = true) :
    processBlocks accept [b] =
      [StoryElem.table [splitWs3 (pyStrip (replaceAll tagFB []
        (replaceAll tagTR [] (replaceAll tagTB [] (pyStrip b)))))]] := by
  have hne : (pyStrip b).isEmpty = false := containsSub_ne_nil h (by decide)
  simp [processBlocks, processBlock, processTableBlock, hne, h]

/-- Witness for claim C2's theorem at the sample tagged block. -/
theorem c2_isolated_row_one_row_table_witness :
    containsSub (pyStrip blockSingleRowSample) tagTR = true ∧
      processBlocks acceptAllR [blockSingleRowSample] =
        [StoryElem.table [splitWs3 (pyStrip (replaceAll tagFB []
          (replaceAll tagTR [] (replaceAll tagTB [] (pyStrip blockSingleRowSample)))))]] :=
  ⟨by decide, c2_isolated_row_one_row_table acceptAllR blockSingleRowSample (by decide)⟩

/-- Claim C5 (confirmed): the footer latch is a one-way per-page latch -
once set, every later line of the call is suppressed; a line containing the
marker cuts off everything after it; and the story of a concatenation of
pages is the concatenation of the stories, so the latch of one page never
reaches a later page (clean_text_rag_optimized is invoked per page with the
latch reset to false). -/
theorem c5_footer_latch_resets_per_page :
    (∀ (lines : List (List Char)), cleanLinesGo true lines = []) ∧
      (∀ (b : Bool) (pre suf : List (List Char)) (m : List Char),
        containsSub (pyStrip m) footerMarker = true →
        cleanLinesGo b (pre ++ m :: suf) = cleanLinesGo b (pre ++ [m])) ∧
      (∀ (accept : List Char → Bool) (pages1 pages2 : List (List Char)),
        sanitizeStory accept (pages1 ++ pages2) =
          sanitizeStory accept pages1 ++ sanitizeStory accept pages2) :=
  ⟨cleanLinesGo_latched, cleanLinesGo_marker_cut, sanitizeStory_append⟩

/-- Witness for claim C5's theorem at concrete lines and pages. -/
theorem c5_footer_latch_resets_per_page_witness :
    containsSub (pyStrip lineFooterSample) footerMarker = true ∧
      cleanLinesGo false ([lineIntroSample] ++ lineFooterSample :: [lineAfterSample]) =
        cleanLinesGo false ([lineIntroSample] ++ [lineFooterSample]) ∧
      sanitizeStory acceptAllR ([pageBodySample] ++ [pageTableRowSample]) =
        sanitizeStory acceptAllR [pageBodySample] ++
          sanitizeStory acceptAllR [pageTableRowSample] :=
  ⟨by decide,
   c5_footer_latch_resets_per_page.2.1 false [lineIntroSample] [lineAfterSample]
     lineFooterSample (by decide),
   c5_footer_latch_resets_per_page.2.2 acceptAllR [pageBodySample] [pageTableRowSample]⟩

/-- Claim C6 (confirmed): on a page matching none of the other junk rules,
the page filter returns junk exactly when at least two of the five fixed
boilerplate markers occur in the lowercased text; in particular one marker
alone never triggers it. -/
theorem c6_boilerplate_cooccurrence (text : List Char)
    (h1 : ¬ ruleDotLeaders text) (h2 : ¬ ruleTocKeyword text)
    (h3 : ¬ ruleListOf text) :
    is_junk_page text = true ↔ ruleBoilerplateCooc text := by
  rw [is_junk_page_rules]
  constructor
  · rintro (hr | hr | hr | hr)
    · exact absurd hr h1
    · exact absurd hr h2
    · exact absurd hr h3
    · exact hr
  · intro hr
    exact Or.inr (Or.inr (Or.inr hr))

/-- Witness for claim C6's theorem at the boilerplate sample page. -/
theorem c6_boilerplate_cooccurrence_witness :
    (¬ ruleDotLeaders pageIsbnSample) ∧ (¬ ruleTocKeyword pageIsbnSample) ∧
      (¬ ruleListOf pageIsbnSample) ∧
      (is_junk_page pageIsbnSample = true ↔ ruleBoilerplateCooc pageIsbnSample) :=
  ⟨by decide, by decide, by decide,
   c6_boilerplate_cooccurrence pageIsbnSample (by decide) (by decide) (by decide)⟩

/-- Claim C7 (confirmed): a document all of whose pages are junk assembles
an empty story, and the renderer is invoked - an output document exists -
exactly when the story is nonempty; an empty story produces no output and
raises no error (every function involved is total). -/
theorem c7_empty_story_skips_renderer (accept : List Char → Bool)
    (pages : List (List Char)) :
    ((∀ p ∈ pages, is_junk_page p = true) → sanitizeStory accept pages = []) ∧
      (sanitizeOutput accept pages = none ↔ sanitizeStory accept pages = []) := by
  constructor
  · exact sanitizeStory_all_junk accept pages
  · simp only [sanitizeOutput]
    split
    · next hs =>
      rw [List.isEmpty_iff] at hs
      simp [hs]
    · next hs =>
      rw [List.isEmpty_iff] at hs
      simp [hs]

/-- Witness for claim C7's theorem at a one-page all-junk document. -/
theorem c7_empty_story_skips_renderer_witness :
    (∀ p ∈ [pageDotsSample], is_junk_page p = true) ∧
      sanitizeStory acceptAllR [pageDotsSample] = [] ∧
      sanitizeOutput acceptAllR [pageDotsSample] = none :=
  ⟨by decide,
   (c7_empty_story_skips_renderer acceptAllR [pageDotsSample]).1 (by decide),
   (c7_empty_story_skips_renderer acceptAllR [pageDotsSample]).2.mpr
     ((c7_empty_story_skips_renderer acceptAllR [pageDotsSample]).1 (by decide))⟩

/-- Counterexample to claim C8 as stated: with a renderer that rejects the
first item's payload, the page's story holds only the second item; the
rejected unit is dropped outright and does not reappear as a body unit with
its raw text. -/
theorem c8_counterexample :
    sanitizeStory acceptRejectFirst [pageTwoItemsSample] =
      [StoryElem.para ("2. Second item".toList) PStyle.list] ∧
      StoryElem.para ("1. First item".toList) PStyle.body ∉
        sanitizeStory acceptRejectFirst [pageTwoItemsSample] := by
  decide

/-- Claim C8 (corrected): a rejected unit is recovered locally in the sense
that nothing propagates - the loop state is left exactly as it was, the
page is not aborted and later blocks are processed from the same state -
but the unit's text is silently lost rather than re-emitted as a body
unit. -/
theorem c8_rejected_unit_dropped (accept : List Char → Bool) (st : BState)
    (b : List Char) (hbuf : st.buf = [])
    (h1 : containsSub (pyStrip b) tagTR = false)
    (h2 : containsSub (pyStrip b) tagTB = false)
    (h3 : accept (pyStrip (replaceAll tagFB [] (pyStrip b))) = false) :
    processBlock accept st b = st := by
  simp only [processBlock, h1, h2, Bool.or_self, Bool.false_eq_true, if_false,
    hbuf, List.isEmpty_nil, if_true, h3]
  split
  · rfl
  · split
    · rfl
    · rfl

/-- Witness for claim C8's theorem at the rejecting renderer and the first
list item. -/
theorem c8_rejected_unit_dropped_witness :
    (BState.buf ⟨[], []⟩ = []) ∧
      containsSub (pyStrip blockListItemSample) tagTR = false ∧
      containsSub (pyStrip blockListItemSample) tagTB = false ∧
      acceptRejectFirst (pyStrip (replaceAll tagFB [] (pyStrip blockListItemSample))) = false ∧
      processBlock acceptRejectFirst ⟨[], []⟩ blockListItemSample = ⟨[], []⟩ :=
  ⟨rfl, by decide, by decide, by decide,
   c8_rejected_unit_dropped acceptRejectFirst ⟨[], []⟩ blockListItemSample rfl
     (by decide) (by decide) (by decide)⟩

/-- Claim C9 (confirmed, modelled from the spec): on a two-column page the
resolver's output - LEFT partition then RIGHT partition, each stably sorted
by the top edge - is a permutation of the trimmed texts of the surviving
fragments: no fragment is duplicated or dropped by the partitioning. -/
theorem c9_partition_complete (p : PageM) (h : isTwoColumn p = true) :
    (order_fragments p).Perm
      ((survivingFragments p).map (fun f => pyStrip f.text)) := by
  have hne : (survivingFragments p).isEmpty = false := by
    rcases List.any_eq_true.mp h with ⟨f, hf, _⟩
    cases hfr : survivingFragments p with
    | nil => rw [hfr] at hf; exact absurd hf (List.not_mem_nil f)
    | cons a as => rfl
  simp only [order_fragments, hne, Bool.false_eq_true, if_false, h, if_true, sortByY]
  apply List.Perm.map
  exact ((List.mergeSort_perm _ _).append (List.mergeSort_perm _ _)).trans
    (List.filter_append_perm _ _)

/-- Witness for claim C9's theorem at the two-column sample page.  The
rational comparison is settled by norm_num because kernel reduction cannot
evaluate rational arithmetic; the fragment filtering is settled by
decide. -/
theorem c9_partition_complete_witness :
    isTwoColumn pageTwoColSample = true ∧
      (order_fragments pageTwoColSample).Perm
        ((survivingFragments pageTwoColSample).map (fun f => pyStrip f.text)) :=
  have hfrag : survivingFragments pageTwoColSample = pageTwoColSample.fragments := by
    simp only [survivingFragments, pageTwoColSample, List.filter_cons, List.filter_nil]
    rw [if_pos (by decide), if_pos (by decide)]
  have h2col : isTwoColumn pageTwoColSample = true := by
    unfold isTwoColumn
    rw [hfrag]
    simp only [pageTwoColSample, pageMid, colMargin, List.any_cons, List.any_nil,
      Bool.or_eq_true, decide_eq_true_eq]
    right
    left
    norm_num
  ⟨h2col, c9_partition_complete pageTwoColSample h2col⟩
